import Mathlib

/-!
Verification development for the bite-bite-ready food-ordering application.

The embedding covers:
* the client-side cart aggregate (`src/src/contexts/CartContext.tsx`),
* the SQLite-backed order store (`src/server/db/schema.js`,
  `src/server/db/queries.js`), modelled as pure functions over an explicit
  database state, with better-sqlite3 transaction (all-or-nothing) semantics
  and the schema's PRIMARY KEY / NOT NULL / CHECK / FOREIGN KEY constraints
  made explicit,
* the Express order-route layer: the server document embedded in
  `src/server/db/seed.js` (order routes at lines 563–753), including its
  request validation, with HTTP status codes mapped to an error taxonomy
  (400 → ValidationError, 404 → NotFoundError, 500 → PersistenceError).

Prices are JavaScript numbers in the source; they are modelled as exact
rationals (ℚ). Quantities and deltas are modelled as integers.
`CURRENT_TIMESTAMP` is modelled by an explicit `now : Nat` parameter on the
operations that assign timestamps.
-/

namespace BiteBite

/-! ### Cart aggregate — from `src/src/contexts/CartContext.tsx` -/

/-- A menu item as held by the frontend (`src/src/types/menu.ts`). -/
structure MenuItem where
  id : String
  name : String
  description : String
  price : ℚ
  category : String
  image : String
  popular : Bool
deriving Repr, DecidableEq

/-- A cart line: a menu item together with a quantity
(`CartItem extends MenuItem` in `src/src/types/menu.ts`). -/
structure CartItem where
  id : String
  name : String
  description : String
  price : ℚ
  category : String
  image : String
  popular : Bool
  quantity : Int
deriving Repr, DecidableEq

/-- The spread `{ ...item, quantity }` used by `addToCart`. -/
def toCartItem (m : MenuItem) (q : Int) : CartItem :=
  { id := m.id, name := m.name, description := m.description, price := m.price
    category := m.category, image := m.image, popular := m.popular, quantity := q }

/-- Function `addToCart` from `CartContext.tsx` (lines 86–98): if a line with the same
id exists, increment its quantity, otherwise append a new line with
quantity 1. -/
def addToCart (item : MenuItem) (prev : List CartItem) : List CartItem :=
  match prev.find? (fun i => i.id == item.id) with
  | some _ =>
      prev.map (fun i => if i.id == item.id then { i with quantity := i.quantity + 1 } else i)
  | none => prev ++ [toCartItem item 1]

/-- Function `updateQuantity` from `CartContext.tsx` (lines 103–119): no-op when the id
is absent; removes the line when the new quantity drops to 0 or below;
otherwise updates the quantity in place. -/
def updateQuantity (id : String) (delta : Int) (prev : List CartItem) : List CartItem :=
  match prev.find? (fun i => i.id == id) with
  | none => prev
  | some item =>
      let newQuantity := item.quantity + delta
      if newQuantity ≤ 0 then prev.filter (fun i => !(i.id == id))
      else prev.map (fun i => if i.id == id then { i with quantity := newQuantity } else i)

/-- Function `removeFromCart` from `CartContext.tsx` (lines 124–127). -/
def removeFromCart (id : String) (prev : List CartItem) : List CartItem :=
  prev.filter (fun i => !(i.id == id))

/-- Function `cartTotal` from `CartContext.tsx` (lines 140–143):
`reduce((sum, item) => sum + item.price * item.quantity, 0)`. -/
def cartTotal (items : List CartItem) : ℚ :=
  items.foldl (fun sum i => sum + i.price * (i.quantity : ℚ)) 0

/-- Function `cartItemCount` from `CartContext.tsx` (lines 148–151):
`reduce((sum, item) => sum + item.quantity, 0)`. -/
def cartItemCount (items : List CartItem) : Int :=
  items.foldl (fun sum i => sum + i.quantity) 0

/-! ### Order store — from `src/server/db/schema.js` and `src/server/db/queries.js`

The database state is explicit. Statement-level failures (PRIMARY KEY,
NOT NULL, CHECK, FOREIGN KEY violations — `foreign_keys = ON` per the server
documentation) are `DbError`s; `db.transaction` of better-sqlite3 gives
all-or-nothing semantics, modelled by returning the original state on any
failure inside the transaction body. -/

/-- The six status literals of the `orders` CHECK constraint
(`src/server/db/schema.js` line 32). -/
def orderStatuses : List String :=
  ["pending", "confirmed", "preparing", "ready", "completed", "cancelled"]

/-- The four category literals of the `menu_items` CHECK constraint
(`src/server/db/schema.js` line 12). -/
def menuCategories : List String :=
  ["appetizer", "main", "dessert", "drink"]

/-- A row of the `menu_items` table. -/
structure MenuItemRow where
  id : String
  name : String
  description : String
  price : ℚ
  category : String
  image : String
  popular : Int
  created_at : Nat
  updated_at : Nat
deriving Repr, DecidableEq

/-- A row of the `orders` table. -/
structure OrderRow where
  id : String
  customer_name : String
  customer_phone : Option String
  customer_address : Option String
  total_price : ℚ
  status : String
  notes : Option String
  created_at : Nat
  updated_at : Nat
deriving Repr, DecidableEq

/-- A row of the `order_items` table. -/
structure OrderItemRow where
  id : String
  order_id : String
  menu_item_id : String
  menu_item_name : String
  quantity : Int
  price : ℚ
deriving Repr, DecidableEq

/-- The whole database state: the three tables, each a list in rowid
(insertion) order. -/
structure DB where
  menu_items : List MenuItemRow
  orders : List OrderRow
  order_items : List OrderItemRow
deriving Repr, DecidableEq

/-- Statement-level failures surfaced by better-sqlite3. -/
inductive DbError
  | pkViolation
  | notNullViolation
  | checkViolation
  | fkViolation
  | noValidFields
deriving Repr, DecidableEq

/-- The `orderData` argument of `createOrder` in `queries.js`:
`customer_name` may be absent (bound as NULL), the rest default to NULL. -/
structure OrderData where
  customer_name : Option String
  customer_phone : Option String
  customer_address : Option String
  notes : Option String
deriving Repr, DecidableEq

/-- One element of the `items` argument of `createOrder` in `queries.js`. -/
structure OrderItemInput where
  menu_item_id : String
  menu_item_name : String
  quantity : Int
  price : ℚ
deriving Repr, DecidableEq

/-- An order header together with its items, the shape
`{ ...order, items }` returned by `getOrderById` in `queries.js`. -/
structure OrderWithItems where
  order : OrderRow
  items : List OrderItemRow
deriving Repr, DecidableEq

/-- Model of `INSERT INTO orders`: enforces the PRIMARY KEY and the status CHECK
constraint of `schema.js`. -/
def insertOrderRow (row : OrderRow) (db : DB) : Except DbError DB :=
  if db.orders.any (fun o => o.id == row.id) then .error .pkViolation
  else if !(orderStatuses.contains row.status) then .error .checkViolation
  else .ok { db with orders := db.orders ++ [row] }

/-- Model of `INSERT INTO order_items`: enforces the PRIMARY KEY and the two FOREIGN
KEY constraints of `schema.js` (`order_id → orders.id`,
`menu_item_id → menu_items.id`; `foreign_keys = ON`). -/
def insertOrderItemRow (row : OrderItemRow) (db : DB) : Except DbError DB :=
  if db.order_items.any (fun r => r.id == row.id) then .error .pkViolation
  else if !(db.orders.any (fun o => o.id == row.order_id)) then .error .fkViolation
  else if !(db.menu_items.any (fun m => m.id == row.menu_item_id)) then .error .fkViolation
  else .ok { db with order_items := db.order_items ++ [row] }

/-- The `order_items` row built from one cart line inside `createOrder`
(`queries.js` lines 239–249). -/
def mkOrderItemRow (orderId iid : String) (item : OrderItemInput) : OrderItemRow :=
  { id := iid, order_id := orderId, menu_item_id := item.menu_item_id,
    menu_item_name := item.menu_item_name, quantity := item.quantity, price := item.price }

/-- The `items.forEach` insertion loop of `createOrder`; `itemId k` is the id
generated for the k-th item. -/
def insertOrderItems (orderId : String) (itemId : Nat → String) :
    List OrderItemInput → Nat → DB → Except DbError DB
  | [], _, db => .ok db
  | item :: rest, k, db =>
      (insertOrderItemRow (mkOrderItemRow orderId (itemId k) item) db).bind
        (insertOrderItems orderId itemId rest (k + 1))

/-- The list of `order_items` rows the loop writes when every insert
succeeds. -/
def mkOrderItemRows (orderId : String) (itemId : Nat → String) :
    List OrderItemInput → Nat → List OrderItemRow
  | [], _ => []
  | item :: rest, k =>
      mkOrderItemRow orderId (itemId k) item :: mkOrderItemRows orderId itemId rest (k + 1)

/-- The total-price computation of `createOrder` (`queries.js` line 213):
`items.reduce((sum, item) => sum + item.price * item.quantity, 0)`. -/
def orderTotal (items : List OrderItemInput) : ℚ :=
  items.foldl (fun sum item => sum + item.price * (item.quantity : ℚ)) 0

/-- Function `getOrderById` from `queries.js` (lines 268–292): the header row, if any,
with all `order_items` rows whose `order_id` matches, in insertion order. -/
def getOrderById (id : String) (db : DB) : Option OrderWithItems :=
  match db.orders.find? (fun o => o.id == id) with
  | none => none
  | some order => some ⟨order, db.order_items.filter (fun r => r.order_id == id)⟩

/-- The order header row inserted by `createOrder` (`queries.js` lines
218–231): `status = "pending"`, server-assigned timestamps. -/
def mkOrderRow (orderId : String) (cname : String) (orderData : OrderData)
    (totalPrice : ℚ) (now : Nat) : OrderRow :=
  { id := orderId, customer_name := cname, customer_phone := orderData.customer_phone,
    customer_address := orderData.customer_address, total_price := totalPrice,
    status := "pending", notes := orderData.notes, created_at := now, updated_at := now }

/-- Function `createOrder` from `queries.js` (lines 205–261): computes the total price
as `Σ price × quantity` over the submitted items, then, inside one
transaction, inserts the header and one item row per cart line; on any
failure the transaction rolls back and the error is rethrown, so the
returned state is the original one. On success it re-reads the order via
`getOrderById`. A NULL `customer_name` violates NOT NULL on the header
insert. -/
def createOrder (orderData : OrderData) (items : List OrderItemInput)
    (orderId : String) (itemId : Nat → String) (now : Nat) (db : DB) :
    Except DbError (Option OrderWithItems) × DB :=
  let body : Except DbError DB :=
    match orderData.customer_name with
    | none => .error .notNullViolation
    | some cname =>
        (insertOrderRow (mkOrderRow orderId cname orderData (orderTotal items) now) db).bind
          (insertOrderItems orderId itemId items 0)
  match body with
  | .ok db1 => (.ok (getOrderById orderId db1), db1)
  | .error e => (.error e, db)

/-- Insertion step of the model of `ORDER BY created_at DESC` (stable,
newest first). -/
def insertByCreatedDesc (o : OrderRow) : List OrderRow → List OrderRow
  | [] => [o]
  | x :: xs =>
      if x.created_at ≤ o.created_at then o :: x :: xs
      else x :: insertByCreatedDesc o xs

/-- Model of `ORDER BY created_at DESC` on the `orders` table. -/
def sortByCreatedDesc : List OrderRow → List OrderRow
  | [] => []
  | x :: xs => insertByCreatedDesc x (sortByCreatedDesc xs)

/-- The per-order item lookup shared by `getAllOrders` and
`getOrdersByStatus` (`SELECT * FROM order_items WHERE order_id = ?`). -/
def attachItems (db : DB) (o : OrderRow) : OrderWithItems :=
  ⟨o, db.order_items.filter (fun r => r.order_id == o.id)⟩

/-- Function `getAllOrders` from `queries.js` (lines 298–316): every order, newest
first, each with its items. -/
def getAllOrders (db : DB) : List OrderWithItems :=
  (sortByCreatedDesc db.orders).map (attachItems db)

/-- Function `getOrdersByStatus` from `queries.js` (lines 352–369): the orders whose
status equals the argument, newest first, each with its items. No status
validation happens at this layer. -/
def getOrdersByStatus (status : String) (db : DB) : List OrderWithItems :=
  (sortByCreatedDesc (db.orders.filter (fun o => o.status == status))).map (attachItems db)

/-- Function `updateOrderStatus` from `queries.js` (lines 324–345): `UPDATE orders SET
status, updated_at WHERE id`. When a row matches, the status CHECK constraint
applies to the updated row: an invalid literal fails the statement and
changes nothing. When no row matches, `changes = 0` and the function returns
null. -/
def updateOrderStatus (id status : String) (now : Nat) (db : DB) :
    Except DbError (Option OrderWithItems) × DB :=
  if db.orders.any (fun o => o.id == id) then
    if orderStatuses.contains status then
      let updated := db.orders.map
        (fun o => if o.id == id then { o with status := status, updated_at := now } else o)
      let db1 := { db with orders := updated }
      (.ok (getOrderById id db1), db1)
    else (.error .checkViolation, db)
  else (.ok none, db)

/-- The partial-update object accepted by `updateMenuItem`, after its
allow-list filtering (unknown keys are dropped by the source, so they do not
appear in the model). -/
structure MenuItemUpdates where
  name : Option String
  description : Option String
  price : Option ℚ
  category : Option String
  image : Option String
  popular : Option Int
deriving Repr, DecidableEq

/-- True when no allowed field is present (`updateFields.length === 0`). -/
def MenuItemUpdates.hasNoFields (u : MenuItemUpdates) : Bool :=
  u.name.isNone && u.description.isNone && u.price.isNone &&
  u.category.isNone && u.image.isNone && u.popular.isNone

/-- The `SET` clause of `updateMenuItem` applied to one row. -/
def applyMenuItemUpdates (u : MenuItemUpdates) (now : Nat) (m : MenuItemRow) : MenuItemRow :=
  { m with
    name := u.name.getD m.name, description := u.description.getD m.description,
    price := u.price.getD m.price, category := u.category.getD m.category,
    image := u.image.getD m.image, popular := u.popular.getD m.popular,
    updated_at := now }

/-- Whether the updated row passes the category CHECK constraint: a category
change must use one of the four literals. -/
def categoryOk (u : MenuItemUpdates) : Bool :=
  match u.category with
  | some c => menuCategories.contains c
  | none => true

/-- Function `updateMenuItem` from `queries.js` (lines 115–155): throws when no
allowed field is present; otherwise updates the matching row (the category
CHECK constraint applies) and returns it, or returns null when no row
matches. -/
def updateMenuItem (id : String) (updates : MenuItemUpdates) (now : Nat) (db : DB) :
    Except DbError (Option MenuItemRow) × DB :=
  if updates.hasNoFields then (.error .noValidFields, db)
  else if db.menu_items.any (fun m => m.id == id) then
    if categoryOk updates then
      let updated := db.menu_items.map
        (fun m => if m.id == id then applyMenuItemUpdates updates now m else m)
      let db1 := { db with menu_items := updated }
      (.ok (db1.menu_items.find? (fun m => m.id == id)), db1)
    else (.error .checkViolation, db)
  else (.ok none, db)

/-- Function `deleteMenuItem` from `queries.js` (lines 162–174): `DELETE FROM
menu_items WHERE id`. With `foreign_keys = ON` and no ON DELETE action on
`order_items.menu_item_id`, deleting a referenced row fails the statement. -/
def deleteMenuItem (id : String) (db : DB) : Except DbError Bool × DB :=
  if db.menu_items.any (fun m => m.id == id) then
    if db.order_items.any (fun r => r.menu_item_id == id) then (.error .fkViolation, db)
    else (.ok true, { db with menu_items := db.menu_items.filter (fun m => !(m.id == id)) })
  else (.ok false, db)

/-- A later catalog mutation: `PUT /api/menu/:id` or `DELETE /api/menu/:id`,
i.e. `updateMenuItem` or `deleteMenuItem` applied for its state effect. -/
inductive CatalogMutation
  | update (id : String) (updates : MenuItemUpdates) (now : Nat)
  | delete (id : String)
deriving Repr

/-- The state effect of one catalog mutation. -/
def applyCatalogMutation (m : CatalogMutation) (db : DB) : DB :=
  match m with
  | .update id u now => (updateMenuItem id u now db).2
  | .delete id => (deleteMenuItem id db).2

/-- The state effect of a sequence of catalog mutations. -/
def applyCatalogMutations : List CatalogMutation → DB → DB
  | [], db => db
  | m :: ms, db => applyCatalogMutations ms (applyCatalogMutation m db)

/-! ### Order routes — the Express layer

The Express server is the document embedded in `src/server/db/seed.js`
after the menu routes; its order routes occupy lines 563–753. Responses are
mapped to an error taxonomy by HTTP status code: 400 → `validationError`,
404 → `notFoundError`, 500 (the catch blocks) → `persistenceError`. -/

/-- The error taxonomy of the route layer: 400, 404 and 500 responses. -/
inductive ApiError
  | validationError
  | notFoundError
  | persistenceError
deriving Repr, DecidableEq

/-- The truthiness test `!customer_name` of the `POST /api/orders` handler
(`seed.js` line 568): a string field is falsy exactly when it is absent or
the empty string. No trimming happens, so a whitespace-only name passes. -/
def customerNameFalsy (customer_name : Option String) : Bool :=
  match customer_name with
  | none => true
  | some n => n == ""

/-- The first per-item check of the `POST /api/orders` handler (`seed.js`
line 584): `!item.menu_item_id || !item.menu_item_name || !item.quantity ||
!item.price` — falsy means empty string for the two strings and zero for the
two numbers. -/
def itemMissingField (i : OrderItemInput) : Bool :=
  i.menu_item_id == "" || i.menu_item_name == "" ||
  i.quantity == 0 || decide (i.price = 0)

/-- The full per-item validation of the `POST /api/orders` handler
(`seed.js` lines 583–604): the truthiness check, then `quantity <= 0`, then
`price <= 0`. The loop returns 400 on the first item failing any of them. -/
def itemInvalid (i : OrderItemInput) : Bool :=
  itemMissingField i || decide (i.quantity ≤ 0) || decide (i.price ≤ 0)

/-- The `validStatuses` literal declared by both status routes (`seed.js`
lines 691 and 731). -/
def validStatuses : List String :=
  ["pending", "confirmed", "preparing", "ready", "completed", "cancelled"]

/-- The `POST /api/orders` handler (`seed.js` lines 563–629): 400 when the
customer name is falsy, the item list is empty, or some item fails the
per-item checks; otherwise it calls `createOrder` and answers 201 with
whatever it returns (it does not null-check the result); a thrown store
error is caught and answered as 500. -/
def apiCreateOrder (orderData : OrderData) (items : List OrderItemInput)
    (orderId : String) (itemId : Nat → String) (now : Nat) (db : DB) :
    Except ApiError (Option OrderWithItems) × DB :=
  if customerNameFalsy orderData.customer_name then (.error .validationError, db)
  else if items.isEmpty then (.error .validationError, db)
  else if items.any itemInvalid then (.error .validationError, db)
  else
    match createOrder orderData items orderId itemId now db with
    | (.ok o, db1) => (.ok o, db1)
    | (.error _, _) => (.error .persistenceError, db)

/-- The `PUT /api/orders/:id/status` handler (`seed.js` lines 685–720):
`if (!status || !validStatuses.includes(status))` answers 400; then
`updateOrderStatus`, answering 404 on a null result; a thrown store error is
caught and answered as 500. -/
def apiUpdateOrderStatus (id status : String) (now : Nat) (db : DB) :
    Except ApiError OrderWithItems × DB :=
  if status == "" || !(validStatuses.contains status) then (.error .validationError, db)
  else
    match updateOrderStatus id status now db with
    | (.ok (some o), db1) => (.ok o, db1)
    | (.ok none, db1) => (.error .notFoundError, db1)
    | (.error _, _) => (.error .persistenceError, db)

/-- The `GET /api/orders/status/:status` handler (`seed.js` lines 726–753):
400 when the path parameter is not one of the six literals, otherwise the
result of `getOrdersByStatus`. -/
def apiGetOrdersByStatus (status : String) (db : DB) :
    Except ApiError (List OrderWithItems) :=
  if !(validStatuses.contains status) then .error .validationError
  else .ok (getOrdersByStatus status db)

/-! ### Sample data (seed row 3 of `src/server/db/seed.js`) for concrete
witnesses -/

/-- A concrete catalog row, matching seed item 3. -/
def sampleMenuRow : MenuItemRow :=
  { id := "3", name := "Grilled Salmon", description := "Atlantic salmon with lemon butter sauce",
    price := 25, category := "main", image := "grilled-salmon.jpg", popular := 1,
    created_at := 0, updated_at := 0 }

/-- A concrete persisted order header. -/
def sampleOrderRow : OrderRow :=
  { id := "order_1", customer_name := "Jane Doe", customer_phone := none,
    customer_address := none, total_price := 50, status := "pending",
    notes := none, created_at := 5, updated_at := 5 }

/-- A concrete database with one menu item and one order without items. -/
def sampleDB : DB :=
  { menu_items := [sampleMenuRow], orders := [sampleOrderRow], order_items := [] }

/-- A concrete checkout customer. -/
def sampleOrderData : OrderData :=
  { customer_name := some "Jane Doe", customer_phone := none,
    customer_address := none, notes := none }

/-- A concrete cart line for seed item 3. -/
def sampleItemInput : OrderItemInput :=
  { menu_item_id := "3", menu_item_name := "Grilled Salmon", quantity := 2, price := 25 }

/-! ### Theorems: cart claims -/

/-- C9. Cart round-trip: from the empty cart, `add(A)` then `add(A)`
yields exactly one line for `A` with quantity 2; a subsequent
`updateQuantity(A.id, -2)` yields zero lines; the derived `cartTotal` and
`cartItemCount` of the result are both 0. -/
theorem cart_round_trip (A : MenuItem) :
    addToCart A (addToCart A []) = [toCartItem A 2] ∧
    updateQuantity A.id (-2) (addToCart A (addToCart A [])) = [] ∧
    cartTotal (updateQuantity A.id (-2) (addToCart A (addToCart A []))) = 0 ∧
    cartItemCount (updateQuantity A.id (-2) (addToCart A (addToCart A []))) = 0 := by
  have h1 : addToCart A [] = [toCartItem A 1] := by
    simp [addToCart]
  have h2 : addToCart A (addToCart A []) = [toCartItem A 2] := by
    rw [h1]
    simp [addToCart, List.find?, toCartItem]
  refine ⟨h2, ?_, ?_, ?_⟩ <;>
    rw [h2] <;>
    simp [updateQuantity, List.find?, toCartItem, cartTotal, cartItemCount]

/-- C10. When no cart line matches `id`, both `updateQuantity id delta`
and `removeFromCart id` leave the cart exactly as it was. -/
theorem cart_missing_id_noop (cart : List CartItem) (id : String) (delta : Int)
    (h : ∀ i ∈ cart, i.id ≠ id) :
    updateQuantity id delta cart = cart ∧ removeFromCart id cart = cart := by
  have hfind : cart.find? (fun i => i.id == id) = none := by
    rw [List.find?_eq_none]
    intro i hi
    simpa using h i hi
  constructor
  · unfold updateQuantity
    rw [hfind]
  · unfold removeFromCart
    apply List.filter_eq_self.mpr
    intro i hi
    simpa using h i hi

/-- Witness for C10 at a concrete cart and id. -/
theorem cart_missing_id_noop_witness :
    updateQuantity "zzz" 5 [toCartItem ⟨"1", "Crispy Spring Rolls", "d", 9, "appetizer", "img", true⟩ 2]
        = [toCartItem ⟨"1", "Crispy Spring Rolls", "d", 9, "appetizer", "img", true⟩ 2] ∧
    removeFromCart "zzz" [toCartItem ⟨"1", "Crispy Spring Rolls", "d", 9, "appetizer", "img", true⟩ 2]
        = [toCartItem ⟨"1", "Crispy Spring Rolls", "d", 9, "appetizer", "img", true⟩ 2] :=
  cart_missing_id_noop _ "zzz" 5 (by decide)

/-! ### Helper lemmas about the order store -/

theorem mkOrderItemRows_length (orderId : String) (itemId : Nat → String) :
    ∀ (items : List OrderItemInput) (k : Nat),
      (mkOrderItemRows orderId itemId items k).length = items.length
  | [], _ => rfl
  | _ :: rest, k => by
      simp [mkOrderItemRows, mkOrderItemRows_length orderId itemId rest (k + 1)]

theorem mkOrderItemRows_order_id (orderId : String) (itemId : Nat → String) :
    ∀ (items : List OrderItemInput) (k : Nat) (r : OrderItemRow),
      r ∈ mkOrderItemRows orderId itemId items k → r.order_id = orderId := by
  intro items
  induction items with
  | nil => intro k r h; simp [mkOrderItemRows] at h
  | cons item rest ih =>
      intro k r h
      simp only [mkOrderItemRows, List.mem_cons] at h
      rcases h with h | h
      · subst h; rfl
      · exact ih (k + 1) r h

theorem mkOrderItemRows_snapshot (orderId : String) (itemId : Nat → String) :
    ∀ (items : List OrderItemInput) (k : Nat),
      (mkOrderItemRows orderId itemId items k).map (fun r => (r.menu_item_name, r.price))
        = items.map (fun i => (i.menu_item_name, i.price)) := by
  intro items
  induction items with
  | nil => intro k; rfl
  | cons item rest ih => intro k; simp [mkOrderItemRows, mkOrderItemRow, ih (k + 1)]

theorem foldl_add_map_sum (f : OrderItemInput → ℚ) :
    ∀ (l : List OrderItemInput) (a : ℚ),
      l.foldl (fun s i => s + f i) a = a + (l.map f).sum
  | [], a => by simp
  | x :: xs, a => by
      simp only [List.foldl_cons, List.map_cons, List.sum_cons,
        foldl_add_map_sum f xs (a + f x)]
      ring

theorem orderTotal_eq_sum (items : List OrderItemInput) :
    orderTotal items = (items.map (fun i => i.price * (i.quantity : ℚ))).sum := by
  simpa using foldl_add_map_sum (fun i => i.price * (i.quantity : ℚ)) items 0

theorem insertOrderRow_ok_shape (row : OrderRow) (db db1 : DB)
    (h : insertOrderRow row db = .ok db1) :
    db1 = { db with orders := db.orders ++ [row] } := by
  unfold insertOrderRow at h
  split at h
  · simp at h
  · split at h
    · simp at h
    · simpa using h.symm

theorem insertOrderItemRow_ok_shape (row : OrderItemRow) (db db1 : DB)
    (h : insertOrderItemRow row db = .ok db1) :
    db1 = { db with order_items := db.order_items ++ [row] } := by
  unfold insertOrderItemRow at h
  split at h
  · simp at h
  · split at h
    · simp at h
    · split at h
      · simp at h
      · simpa using h.symm

theorem insertOrderItems_ok_shape (orderId : String) (itemId : Nat → String) :
    ∀ (items : List OrderItemInput) (k : Nat) (db db1 : DB),
      insertOrderItems orderId itemId items k db = .ok db1 →
      db1 = { db with order_items := db.order_items ++ mkOrderItemRows orderId itemId items k } := by
  intro items
  induction items with
  | nil =>
      intro k db db1 h
      simp only [insertOrderItems] at h
      cases h
      simp [mkOrderItemRows]
  | cons item rest ih =>
      intro k db db1 h
      simp only [insertOrderItems] at h
      cases hrow : insertOrderItemRow (mkOrderItemRow orderId (itemId k) item) db with
      | error e => rw [hrow] at h; simp [Except.bind] at h
      | ok db2 =>
          rw [hrow] at h
          simp only [Except.bind] at h
          have h2 := ih (k + 1) db2 db1 h
          have h3 := insertOrderItemRow_ok_shape _ _ _ hrow
          subst h3
          simp [mkOrderItemRows] at h2 ⊢
          exact h2

theorem insertOrderItems_ok (orderId : String) (itemId : Nat → String) :
    ∀ (items : List OrderItemInput) (k : Nat) (db : DB),
      db.orders.any (fun o => o.id == orderId) = true →
      (∀ j, j < items.length → ∀ r ∈ db.order_items, r.id ≠ itemId (k + j)) →
      (∀ j, j < items.length → ∀ i, i < j → itemId (k + i) ≠ itemId (k + j)) →
      (∀ it ∈ items, ∃ m ∈ db.menu_items, m.id = it.menu_item_id) →
      insertOrderItems orderId itemId items k db =
        .ok { db with order_items := db.order_items ++ mkOrderItemRows orderId itemId items k } := by
  intro items
  induction items with
  | nil =>
      intro k db _ _ _ _
      simp [insertOrderItems, mkOrderItemRows]
  | cons item rest ih =>
      intro k db hord hfresh hinj hfk
      have hpk : db.order_items.any (fun r => r.id == itemId k) = false := by
        rw [List.any_eq_false]
        intro r hr
        have h0 := hfresh 0 (by simp) r hr
        simpa using h0
      have hmenu : db.menu_items.any (fun m => m.id == item.menu_item_id) = true := by
        rcases hfk item (by simp) with ⟨m, hm, hid⟩
        exact List.any_eq_true.mpr ⟨m, hm, by simp [hid]⟩
      have hrow : insertOrderItemRow (mkOrderItemRow orderId (itemId k) item) db
          = .ok { db with order_items :=
              db.order_items ++ [mkOrderItemRow orderId (itemId k) item] } := by
        simp [insertOrderItemRow, mkOrderItemRow, hpk, hord, hmenu]
      have hstep : insertOrderItems orderId itemId (item :: rest) k db
          = insertOrderItems orderId itemId rest (k + 1)
              { db with order_items := db.order_items ++ [mkOrderItemRow orderId (itemId k) item] } := by
        simp [insertOrderItems, hrow, Except.bind]
      rw [hstep]
      rw [ih (k + 1)
        { db with order_items := db.order_items ++ [mkOrderItemRow orderId (itemId k) item] }
        (by simpa using hord) ?fresh ?inj
        (fun it hit => hfk it (List.mem_cons_of_mem item hit))]
      · simp [mkOrderItemRows]
      case fresh =>
        intro j hj r hr
        have e : k + 1 + j = k + (j + 1) := by omega
        rw [e]
        rcases List.mem_append.mp hr with hold | hnew
        · exact hfresh (j + 1) (by simpa using Nat.succ_lt_succ hj) r hold
        · have hr1 : r = mkOrderItemRow orderId (itemId k) item := by simpa using hnew
          subst hr1
          have h1 := hinj (j + 1) (by simpa using Nat.succ_lt_succ hj) 0 (by omega)
          simpa [mkOrderItemRow] using h1
      case inj =>
        intro j hj i hi
        have e1 : k + 1 + i = k + (i + 1) := by omega
        have e2 : k + 1 + j = k + (j + 1) := by omega
        rw [e1, e2]
        exact hinj (j + 1) (by simpa using Nat.succ_lt_succ hj) (i + 1) (by omega)

theorem getOrderById_fresh_append (db : DB) (hdr : OrderRow) (rows : List OrderItemRow)
    (i : String) (hid : hdr.id = i)
    (horder : ∀ o ∈ db.orders, o.id ≠ i)
    (hitems : ∀ r ∈ db.order_items, r.order_id ≠ i)
    (hrows : ∀ r ∈ rows, r.order_id = i) :
    getOrderById i { db with orders := db.orders ++ [hdr], order_items := db.order_items ++ rows }
      = some ⟨hdr, rows⟩ := by
  have hfind : (db.orders ++ [hdr]).find? (fun o => o.id == i) = some hdr := by
    rw [List.find?_append]
    have h1 : db.orders.find? (fun o => o.id == i) = none := by
      rw [List.find?_eq_none]
      intro o ho
      simpa using horder o ho
    rw [h1]
    simp [hid]
  have hfilter : (db.order_items ++ rows).filter (fun r => r.order_id == i) = rows := by
    rw [List.filter_append]
    have h1 : db.order_items.filter (fun r => r.order_id == i) = [] := by
      rw [List.filter_eq_nil_iff]
      intro r hr
      simpa using hitems r hr
    have h2 : rows.filter (fun r => r.order_id == i) = rows := by
      rw [List.filter_eq_self]
      intro r hr
      simpa using hrows r hr
    rw [h1, h2]
    rfl
  simp only [getOrderById]
  rw [hfind, hfilter]

theorem createOrder_ok (orderData : OrderData) (items : List OrderItemInput)
    (orderId : String) (itemId : Nat → String) (now : Nat) (db : DB) (cname : String)
    (hname : orderData.customer_name = some cname)
    (horder : ∀ o ∈ db.orders, o.id ≠ orderId)
    (hfresh : ∀ j, j < items.length → ∀ r ∈ db.order_items, r.id ≠ itemId j)
    (hinj : ∀ j, j < items.length → ∀ i, i < j → itemId i ≠ itemId j)
    (hfk : ∀ it ∈ items, ∃ m ∈ db.menu_items, m.id = it.menu_item_id)
    (hitems : ∀ r ∈ db.order_items, r.order_id ≠ orderId) :
    createOrder orderData items orderId itemId now db =
      (.ok (some ⟨mkOrderRow orderId cname orderData (orderTotal items) now,
                  mkOrderItemRows orderId itemId items 0⟩),
       { db with
           orders := db.orders ++ [mkOrderRow orderId cname orderData (orderTotal items) now],
           order_items := db.order_items ++ mkOrderItemRows orderId itemId items 0 }) := by
  have hpk : db.orders.any (fun o => o.id == orderId) = false := by
    rw [List.any_eq_false]
    intro o ho
    simpa using horder o ho
  have hrow : insertOrderRow (mkOrderRow orderId cname orderData (orderTotal items) now) db
      = .ok { db with orders :=
          db.orders ++ [mkOrderRow orderId cname orderData (orderTotal items) now] } := by
    simp [insertOrderRow, mkOrderRow, hpk, orderStatuses]
  have hloop := insertOrderItems_ok orderId itemId items 0
    { db with orders := db.orders ++ [mkOrderRow orderId cname orderData (orderTotal items) now] }
    (by simp [mkOrderRow])
    (by intro j hj r hr; simpa using hfresh j hj r hr)
    (by intro j hj i hi; simpa using hinj j hj i hi)
    (by intro it hit; simpa using hfk it hit)
  have hget := getOrderById_fresh_append db
    (mkOrderRow orderId cname orderData (orderTotal items) now)
    (mkOrderItemRows orderId itemId items 0) orderId rfl horder hitems
    (mkOrderItemRows_order_id orderId itemId items 0)
  simp only [createOrder, hname, hrow, Except.bind, hloop]
  rw [← hget]

/-! ### Theorems: order store claims -/

/-- C1. `createOrder` is atomic: every call either fails leaving the
database exactly as it was (no header, no item row), or durably writes the
order header together with exactly one `order_items` row per submitted cart
line, every one of them keyed to the new header — there is no outcome with a
header missing items or items missing their header. -/
theorem createOrder_atomic (orderData : OrderData) (items : List OrderItemInput)
    (orderId : String) (itemId : Nat → String) (now : Nat) (db : DB) :
    (∃ e, createOrder orderData items orderId itemId now db = (.error e, db)) ∨
    (∃ cname, orderData.customer_name = some cname ∧
      (createOrder orderData items orderId itemId now db).2 =
        { db with
            orders := db.orders ++ [mkOrderRow orderId cname orderData (orderTotal items) now],
            order_items := db.order_items ++ mkOrderItemRows orderId itemId items 0 } ∧
      (createOrder orderData items orderId itemId now db).1 =
        .ok (getOrderById orderId (createOrder orderData items orderId itemId now db).2) ∧
      (mkOrderItemRows orderId itemId items 0).length = items.length ∧
      ∀ r ∈ mkOrderItemRows orderId itemId items 0, r.order_id = orderId) := by
  cases hname : orderData.customer_name with
  | none =>
      left
      exact ⟨.notNullViolation, by simp [createOrder, hname]⟩
  | some cname =>
      cases hrow : insertOrderRow (mkOrderRow orderId cname orderData (orderTotal items) now) db with
      | error e =>
          left
          exact ⟨e, by simp [createOrder, hname, hrow, Except.bind]⟩
      | ok dbh =>
          cases hloop : insertOrderItems orderId itemId items 0 dbh with
          | error e =>
              left
              exact ⟨e, by simp [createOrder, hname, hrow, hloop, Except.bind]⟩
          | ok db1 =>
              right
              refine ⟨cname, rfl, ?_, ?_, mkOrderItemRows_length orderId itemId items 0,
                mkOrderItemRows_order_id orderId itemId items 0⟩
              · have h3 := insertOrderRow_ok_shape _ _ _ hrow
                have h2 := insertOrderItems_ok_shape orderId itemId items 0 dbh db1 hloop
                subst h3
                simp [createOrder, hname, hrow, hloop, Except.bind, h2]
              · simp [createOrder, hname, hrow, hloop, Except.bind]

/-- C2. For every valid input — a present customer name, a fresh order
id, fresh pairwise-distinct generated item ids, and cart lines referencing
existing menu items — `createOrder` returns an Order whose `totalPrice`
equals the exact sum `Σ price × quantity` over all submitted items, computed
from the caller-submitted per-line prices. -/
theorem createOrder_totalPrice (orderData : OrderData) (items : List OrderItemInput)
    (orderId : String) (itemId : Nat → String) (now : Nat) (db : DB) (cname : String)
    (hname : orderData.customer_name = some cname)
    (horder : ∀ o ∈ db.orders, o.id ≠ orderId)
    (hfresh : ∀ j, j < items.length → ∀ r ∈ db.order_items, r.id ≠ itemId j)
    (hinj : ∀ j, j < items.length → ∀ i, i < j → itemId i ≠ itemId j)
    (hfk : ∀ it ∈ items, ∃ m ∈ db.menu_items, m.id = it.menu_item_id)
    (hitems : ∀ r ∈ db.order_items, r.order_id ≠ orderId) :
    ∃ o : OrderWithItems,
      (createOrder orderData items orderId itemId now db).1 = .ok (some o) ∧
      o.order.total_price = (items.map (fun i => i.price * (i.quantity : ℚ))).sum := by
  refine ⟨⟨mkOrderRow orderId cname orderData (orderTotal items) now,
           mkOrderItemRows orderId itemId items 0⟩, ?_, ?_⟩
  · rw [createOrder_ok orderData items orderId itemId now db cname hname horder hfresh
      hinj hfk hitems]
  · simpa [mkOrderRow] using orderTotal_eq_sum items

/-- Witness for C2: ordering 2 × seed item 3 (price 25) records a total of
exactly 2 × 25. -/
theorem createOrder_totalPrice_witness :
    ∃ o : OrderWithItems,
      (createOrder sampleOrderData [sampleItemInput] "order_2"
        (fun k => String.append "item_" (toString k)) 7 sampleDB).1 = .ok (some o) ∧
      o.order.total_price =
        ([sampleItemInput].map (fun i => i.price * (i.quantity : ℚ))).sum :=
  createOrder_totalPrice sampleOrderData [sampleItemInput] "order_2"
    (fun k => String.append "item_" (toString k)) 7 sampleDB "Jane Doe"
    (by decide) (by decide) (by decide) (by decide) (by decide) (by decide)

/-- Frame property: `updateMenuItem` touches only the `menu_items` table. -/
theorem updateMenuItem_frame (id : String) (u : MenuItemUpdates) (now : Nat) (db : DB) :
    (updateMenuItem id u now db).2.orders = db.orders ∧
    (updateMenuItem id u now db).2.order_items = db.order_items := by
  unfold updateMenuItem
  repeat' split
  all_goals exact ⟨rfl, rfl⟩

/-- Frame property: `deleteMenuItem` touches only the `menu_items` table. -/
theorem deleteMenuItem_frame (id : String) (db : DB) :
    (deleteMenuItem id db).2.orders = db.orders ∧
    (deleteMenuItem id db).2.order_items = db.order_items := by
  unfold deleteMenuItem
  split
  · split
    · exact ⟨rfl, rfl⟩
    · exact ⟨rfl, rfl⟩
  · exact ⟨rfl, rfl⟩

/-- Any catalog mutation leaves the two order tables untouched. -/
theorem applyCatalogMutation_frame (m : CatalogMutation) (db : DB) :
    (applyCatalogMutation m db).orders = db.orders ∧
    (applyCatalogMutation m db).order_items = db.order_items := by
  cases m with
  | update id u now => exact updateMenuItem_frame id u now db
  | delete id => exact deleteMenuItem_frame id db

/-- Lookup `getOrderById` is invariant under any sequence of catalog mutations. -/
theorem getOrderById_catalog_invariant (i : String) :
    ∀ (ms : List CatalogMutation) (db : DB),
      getOrderById i (applyCatalogMutations ms db) = getOrderById i db := by
  intro ms
  induction ms with
  | nil => intro db; rfl
  | cons m rest ih =>
      intro db
      show getOrderById i (applyCatalogMutations rest (applyCatalogMutation m db)) = _
      rw [ih]
      have hf := applyCatalogMutation_frame m db
      unfold getOrderById
      rw [hf.1, hf.2]

/-- C7. Price-snapshot guarantee: after a successful `createOrder`,
`getOrderById` returns exactly as many items as were submitted, each carrying
the submitted `price` and `menuItemName`, and this result is unchanged by any
later sequence of catalog mutations (`updateMenuItem` / `deleteMenuItem`),
including mutations of the referenced menu items. -/
theorem createOrder_price_snapshot (orderData : OrderData) (items : List OrderItemInput)
    (orderId : String) (itemId : Nat → String) (now : Nat) (db : DB) (cname : String)
    (hname : orderData.customer_name = some cname)
    (horder : ∀ o ∈ db.orders, o.id ≠ orderId)
    (hfresh : ∀ j, j < items.length → ∀ r ∈ db.order_items, r.id ≠ itemId j)
    (hinj : ∀ j, j < items.length → ∀ i, i < j → itemId i ≠ itemId j)
    (hfk : ∀ it ∈ items, ∃ m ∈ db.menu_items, m.id = it.menu_item_id)
    (hitems : ∀ r ∈ db.order_items, r.order_id ≠ orderId) :
    ∃ (o : OrderWithItems) (db1 : DB),
      createOrder orderData items orderId itemId now db = (.ok (some o), db1) ∧
      getOrderById orderId db1 = some o ∧
      o.items.length = items.length ∧
      o.items.map (fun r => (r.menu_item_name, r.price))
        = items.map (fun i => (i.menu_item_name, i.price)) ∧
      ∀ ms : List CatalogMutation,
        getOrderById orderId (applyCatalogMutations ms db1) = some o := by
  have hget := getOrderById_fresh_append db
    (mkOrderRow orderId cname orderData (orderTotal items) now)
    (mkOrderItemRows orderId itemId items 0) orderId rfl horder hitems
    (mkOrderItemRows_order_id orderId itemId items 0)
  refine ⟨⟨mkOrderRow orderId cname orderData (orderTotal items) now,
           mkOrderItemRows orderId itemId items 0⟩, _,
    createOrder_ok orderData items orderId itemId now db cname hname horder hfresh
      hinj hfk hitems, hget,
    mkOrderItemRows_length orderId itemId items 0,
    mkOrderItemRows_snapshot orderId itemId items 0, ?_⟩
  intro ms
  rw [getOrderById_catalog_invariant orderId ms]
  exact hget

/-- Witness for C7: after ordering seed item 3, repricing it to 30 and then
deleting it leaves the stored order lookup identical. -/
theorem createOrder_price_snapshot_witness :
    ∃ (o : OrderWithItems) (db1 : DB),
      createOrder sampleOrderData [sampleItemInput] "order_2"
        (fun k => String.append "item_" (toString k)) 7 sampleDB = (.ok (some o), db1) ∧
      getOrderById "order_2" db1 = some o ∧
      o.items.length = [sampleItemInput].length ∧
      o.items.map (fun r => (r.menu_item_name, r.price))
        = [sampleItemInput].map (fun i => (i.menu_item_name, i.price)) ∧
      getOrderById "order_2"
        (applyCatalogMutations
          [CatalogMutation.update "3" ⟨none, none, some 30, none, none, none⟩ 9,
           CatalogMutation.delete "3"] db1) = some o := by
  obtain ⟨o, db1, h1, h2, h3, h4, h5⟩ :=
    createOrder_price_snapshot sampleOrderData [sampleItemInput] "order_2"
      (fun k => String.append "item_" (toString k)) 7 sampleDB "Jane Doe"
      (by decide) (by decide) (by decide) (by decide) (by decide) (by decide)
  exact ⟨o, db1, h1, h2, h3, h4, h5 _⟩

/-- C3. Submitting an empty item list to the order-creation endpoint
always fails with `ValidationError` and persists nothing: the database is
returned unchanged, so no header and no item row from this call exists. -/
theorem apiCreateOrder_empty_items (orderData : OrderData) (orderId : String)
    (itemId : Nat → String) (now : Nat) (db : DB) :
    apiCreateOrder orderData [] orderId itemId now db = (.error .validationError, db) := by
  unfold apiCreateOrder
  split
  · rfl
  · rfl

/-- C4. Submitting any item with `quantity ≤ 0` or `price ≤ 0` fails with
`ValidationError` and persists no partial order: the set of order header rows
is exactly what it was before the call. -/
theorem apiCreateOrder_invalid_item (orderData : OrderData) (items : List OrderItemInput)
    (orderId : String) (itemId : Nat → String) (now : Nat) (db : DB)
    (h : ∃ i ∈ items, i.quantity ≤ 0 ∨ i.price ≤ 0) :
    apiCreateOrder orderData items orderId itemId now db = (.error .validationError, db) ∧
    (apiCreateOrder orderData items orderId itemId now db).2.orders = db.orders := by
  have hany : items.any itemInvalid = true := by
    rcases h with ⟨i, hi, hqp⟩
    refine List.any_eq_true.mpr ⟨i, hi, ?_⟩
    unfold itemInvalid
    rcases hqp with hq | hp
    · simp [hq]
    · simp [hp]
  have hne : items.isEmpty = false := by
    rcases h with ⟨i, hi, _⟩
    cases items with
    | nil => simp at hi
    | cons a l => rfl
  have heq : apiCreateOrder orderData items orderId itemId now db
      = (.error .validationError, db) := by
    simp [apiCreateOrder, hne, hany]
  exact ⟨heq, by rw [heq]⟩

/-- C5. For an existing order and any status literal outside the six
defined ones, the status-update endpoint fails with `ValidationError` and the
stored status is untouched; the store itself would equally reject the raw
UPDATE through its CHECK constraint, changing nothing. -/
theorem apiUpdateOrderStatus_invalid (id status : String) (now : Nat) (db : DB) (o : OrderRow)
    (hstatus : status ∉ orderStatuses)
    (horder : db.orders.find? (fun r => r.id == id) = some o) :
    apiUpdateOrderStatus id status now db = (.error .validationError, db) ∧
    updateOrderStatus id status now db = (.error .checkViolation, db) ∧
    (apiUpdateOrderStatus id status now db).2.orders.find? (fun r => r.id == id) = some o := by
  have hc : orderStatuses.contains status = false := by
    simpa using hstatus
  have hcv : validStatuses.contains status = false := hc
  have hp := List.find?_some horder
  have hany : db.orders.any (fun r => r.id == id) = true :=
    List.any_eq_true.mpr ⟨o, List.mem_of_find?_eq_some horder, hp⟩
  have happ : apiUpdateOrderStatus id status now db = (.error .validationError, db) := by
    unfold apiUpdateOrderStatus
    rw [hcv]
    simp
  refine ⟨happ, ?_, by rw [happ]; exact horder⟩
  unfold updateOrderStatus
  rw [hany, hc]
  rfl

/-- Witness for C5: updating the sample order to the undefined literal
"shipped" is rejected and leaves its row intact. -/
theorem apiUpdateOrderStatus_invalid_witness :
    apiUpdateOrderStatus "order_1" "shipped" 9 sampleDB = (.error .validationError, sampleDB) ∧
    updateOrderStatus "order_1" "shipped" 9 sampleDB = (.error .checkViolation, sampleDB) ∧
    (apiUpdateOrderStatus "order_1" "shipped" 9 sampleDB).2.orders.find?
        (fun r => r.id == "order_1") = some sampleOrderRow :=
  apiUpdateOrderStatus_invalid "order_1" "shipped" 9 sampleDB sampleOrderRow
    (by decide) (by decide)

/-- C6. Every status-filter value outside the six defined literals makes
the list-orders-by-status endpoint fail with `ValidationError` instead of
returning a list. -/
theorem apiGetOrdersByStatus_invalid (status : String) (db : DB)
    (h : status ∉ orderStatuses) :
    apiGetOrdersByStatus status db = .error .validationError := by
  have hc : orderStatuses.contains status = false := by simpa using h
  have hcv : validStatuses.contains status = false := hc
  unfold apiGetOrdersByStatus
  rw [hcv]
  rfl

/-- Witness for C6: filtering by the undefined literal "unknown" fails. -/
theorem apiGetOrdersByStatus_invalid_witness :
    apiGetOrdersByStatus "unknown" sampleDB = .error .validationError :=
  apiGetOrdersByStatus_invalid "unknown" sampleDB (by decide)

/-- Witness for C4: a cart line with quantity 0 is rejected and the header
table is unchanged. -/
theorem apiCreateOrder_invalid_item_witness :
    apiCreateOrder sampleOrderData
        [{ menu_item_id := "3", menu_item_name := "Grilled Salmon", quantity := 0, price := 25 }]
        "order_2" (fun k => toString k) 7 sampleDB = (.error .validationError, sampleDB) ∧
    (apiCreateOrder sampleOrderData
        [{ menu_item_id := "3", menu_item_name := "Grilled Salmon", quantity := 0, price := 25 }]
        "order_2" (fun k => toString k) 7 sampleDB).2.orders = sampleDB.orders :=
  apiCreateOrder_invalid_item sampleOrderData _ "order_2" (fun k => toString k) 7 sampleDB
    (by decide)

/-! ### Sorting lemmas for `ORDER BY created_at DESC` -/

theorem insertByCreatedDesc_perm (o : OrderRow) :
    ∀ l : List OrderRow, (insertByCreatedDesc o l).Perm (o :: l) := by
  intro l
  induction l with
  | nil => exact List.Perm.refl _
  | cons x xs ih =>
      unfold insertByCreatedDesc
      split
      · exact List.Perm.refl _
      · exact (ih.cons x).trans (List.Perm.swap o x xs)

theorem sortByCreatedDesc_perm : ∀ l : List OrderRow, (sortByCreatedDesc l).Perm l := by
  intro l
  induction l with
  | nil => exact List.Perm.refl _
  | cons x xs ih =>
      exact (insertByCreatedDesc_perm x (sortByCreatedDesc xs)).trans (ih.cons x)

theorem insertByCreatedDesc_pairwise (o : OrderRow) :
    ∀ l : List OrderRow,
      l.Pairwise (fun a b => b.created_at ≤ a.created_at) →
      (insertByCreatedDesc o l).Pairwise (fun a b => b.created_at ≤ a.created_at) := by
  intro l
  induction l with
  | nil => intro _; simp [insertByCreatedDesc]
  | cons x xs ih =>
      intro h
      rw [List.pairwise_cons] at h
      obtain ⟨hx, hxs⟩ := h
      unfold insertByCreatedDesc
      split
      · rename_i hle
        rw [List.pairwise_cons]
        refine ⟨?_, List.pairwise_cons.mpr ⟨hx, hxs⟩⟩
        intro b hb
        rcases List.mem_cons.mp hb with rfl | hb2
        · exact hle
        · exact le_trans (hx b hb2) hle
      · rename_i hgt
        rw [List.pairwise_cons]
        refine ⟨?_, ih hxs⟩
        intro b hb
        rcases List.mem_cons.mp ((insertByCreatedDesc_perm o xs).mem_iff.mp hb) with rfl | hb2
        · omega
        · exact hx b hb2

theorem sortByCreatedDesc_pairwise :
    ∀ l : List OrderRow,
      (sortByCreatedDesc l).Pairwise (fun a b => b.created_at ≤ a.created_at) := by
  intro l
  induction l with
  | nil => simp [sortByCreatedDesc]
  | cons x xs ih => exact insertByCreatedDesc_pairwise x (sortByCreatedDesc xs) ih

theorem map_order_attachItems (d : DB) :
    ∀ l : List OrderRow, (l.map (attachItems d)).map OrderWithItems.order = l := by
  intro l
  induction l with
  | nil => rfl
  | cons x xs ih => simp [attachItems, ih]

theorem map_fix_of_forall_eq (f : OrderRow → OrderRow) :
    ∀ l : List OrderRow, (∀ o ∈ l, f o = o) → l.map f = l := by
  intro l
  induction l with
  | nil => intro _; rfl
  | cons x xs ih =>
      intro h
      simp only [List.map_cons, h x (List.mem_cons_self x xs),
        ih (fun o ho => h o (List.mem_cons_of_mem x ho))]

/-! ### Listing lemmas -/

theorem getAllOrders_spec (d : DB) :
    ((getAllOrders d).map OrderWithItems.order).Perm d.orders ∧
    (getAllOrders d).Pairwise (fun a b => b.order.created_at ≤ a.order.created_at) ∧
    ∀ x ∈ getAllOrders d,
      x.items = d.order_items.filter (fun r => r.order_id == x.order.id) := by
  refine ⟨?_, ?_, ?_⟩
  · rw [getAllOrders, map_order_attachItems]
    exact sortByCreatedDesc_perm d.orders
  · rw [getAllOrders, List.pairwise_map]
    exact sortByCreatedDesc_pairwise d.orders
  · intro x hx
    rcases List.mem_map.mp hx with ⟨o, _, rfl⟩
    rfl

theorem mem_getOrdersByStatus_of_mem (d : DB) (s : String) (o : OrderRow)
    (ho : o ∈ d.orders) (hs : (o.status == s) = true) :
    attachItems d o ∈ getOrdersByStatus s d := by
  apply List.mem_map_of_mem
  exact ((sortByCreatedDesc_perm _).mem_iff).mpr (List.mem_filter.mpr ⟨ho, hs⟩)

theorem updateOrderStatus_fresh_append (db : DB) (hdr : OrderRow) (rows : List OrderItemRow)
    (orderId : String) (s : String) (now2 : Nat)
    (hid : hdr.id = orderId)
    (hs : orderStatuses.contains s = true)
    (horder : ∀ o ∈ db.orders, o.id ≠ orderId)
    (hitems : ∀ r ∈ db.order_items, r.order_id ≠ orderId)
    (hrows : ∀ r ∈ rows, r.order_id = orderId) :
    updateOrderStatus orderId s now2
        { db with orders := db.orders ++ [hdr], order_items := db.order_items ++ rows }
      = (.ok (some ⟨{ hdr with status := s, updated_at := now2 }, rows⟩),
         { db with
             orders := db.orders ++ [{ hdr with status := s, updated_at := now2 }],
             order_items := db.order_items ++ rows }) := by
  have hany : (db.orders ++ [hdr]).any (fun o => o.id == orderId) = true :=
    List.any_eq_true.mpr ⟨hdr, by simp, by simp [hid]⟩
  have hmapfix : db.orders.map
      (fun o => if o.id == orderId then { o with status := s, updated_at := now2 } else o)
      = db.orders := by
    apply map_fix_of_forall_eq
    intro o ho
    simp [horder o ho]
  have hmap : (db.orders ++ [hdr]).map
      (fun o => if o.id == orderId then { o with status := s, updated_at := now2 } else o)
      = db.orders ++ [{ hdr with status := s, updated_at := now2 }] := by
    simp only [List.map_append, hmapfix, List.map_cons, List.map_nil, hid]
    simp
  have hget := getOrderById_fresh_append db { hdr with status := s, updated_at := now2 }
    rows orderId (by simpa using hid) horder hitems hrows
  unfold updateOrderStatus
  dsimp only
  rw [hany, hs]
  simp only [if_true]
  rw [hmap, hget]

theorem getOrdersByStatus_spec (d : DB) (s : String) :
    ((getOrdersByStatus s d).map OrderWithItems.order).Perm
      (d.orders.filter (fun o => o.status == s)) ∧
    (getOrdersByStatus s d).Pairwise (fun a b => b.order.created_at ≤ a.order.created_at) ∧
    ∀ x ∈ getOrdersByStatus s d, x.order.status = s ∧
      x.items = d.order_items.filter (fun r => r.order_id == x.order.id) := by
  refine ⟨?_, ?_, ?_⟩
  · rw [getOrdersByStatus, map_order_attachItems]
    exact sortByCreatedDesc_perm _
  · rw [getOrdersByStatus, List.pairwise_map]
    exact sortByCreatedDesc_pairwise _
  · intro x hx
    rcases List.mem_map.mp hx with ⟨o, ho, rfl⟩
    have ho2 := (sortByCreatedDesc_perm _).subset ho
    rcases List.mem_filter.mp ho2 with ⟨_, hstat⟩
    exact ⟨by simpa using hstat, rfl⟩

/-- C8. Listing orders returns every stored order (filtered listing
returns exactly the orders whose status equals the filter), each with its
items attached, sorted newest-created-first; and in the end-to-end scenario a
freshly created order (status `pending`) is absent from the
`completed`-filtered list, while after a successful
`updateOrderStatus(id, "completed")` the same query includes it. -/
theorem listOrders_spec (orderData : OrderData) (items : List OrderItemInput)
    (orderId : String) (itemId : Nat → String) (now : Nat) (db : DB) (cname : String)
    (hname : orderData.customer_name = some cname)
    (horder : ∀ o ∈ db.orders, o.id ≠ orderId)
    (hfresh : ∀ j, j < items.length → ∀ r ∈ db.order_items, r.id ≠ itemId j)
    (hinj : ∀ j, j < items.length → ∀ i, i < j → itemId i ≠ itemId j)
    (hfk : ∀ it ∈ items, ∃ m ∈ db.menu_items, m.id = it.menu_item_id)
    (hitems : ∀ r ∈ db.order_items, r.order_id ≠ orderId) :
    (∀ d : DB,
      ((getAllOrders d).map OrderWithItems.order).Perm d.orders ∧
      (getAllOrders d).Pairwise (fun a b => b.order.created_at ≤ a.order.created_at) ∧
      ∀ x ∈ getAllOrders d,
        x.items = d.order_items.filter (fun r => r.order_id == x.order.id)) ∧
    (∀ (d : DB) (s : String),
      ((getOrdersByStatus s d).map OrderWithItems.order).Perm
        (d.orders.filter (fun o => o.status == s)) ∧
      (getOrdersByStatus s d).Pairwise (fun a b => b.order.created_at ≤ a.order.created_at) ∧
      ∀ x ∈ getOrdersByStatus s d, x.order.status = s ∧
        x.items = d.order_items.filter (fun r => r.order_id == x.order.id)) ∧
    (∀ x ∈ getOrdersByStatus "completed"
        (createOrder orderData items orderId itemId now db).2, x.order.id ≠ orderId) ∧
    (∀ now2 : Nat, ∃ (y : OrderWithItems) (db2 : DB),
      updateOrderStatus orderId "completed" now2
          (createOrder orderData items orderId itemId now db).2 = (.ok (some y), db2) ∧
      ∃ x ∈ getOrdersByStatus "completed" db2, x.order.id = orderId) := by
  have hco := createOrder_ok orderData items orderId itemId now db cname hname horder
    hfresh hinj hfk hitems
  refine ⟨getAllOrders_spec, getOrdersByStatus_spec, ?_, ?_⟩
  · intro x hx
    rw [hco] at hx
    rcases List.mem_map.mp hx with ⟨o, ho, rfl⟩
    have ho2 := (sortByCreatedDesc_perm _).subset ho
    rcases List.mem_filter.mp ho2 with ⟨hmem, hstat⟩
    rcases List.mem_append.mp hmem with hold | hnew
    · exact horder o hold
    · have : o = mkOrderRow orderId cname orderData (orderTotal items) now := by
        simpa using hnew
      subst this
      simp [mkOrderRow] at hstat
  · intro now2
    rw [hco]
    have hupd := updateOrderStatus_fresh_append db
      (mkOrderRow orderId cname orderData (orderTotal items) now)
      (mkOrderItemRows orderId itemId items 0) orderId "completed" now2
      rfl (by decide) horder hitems (mkOrderItemRows_order_id orderId itemId items 0)
    refine ⟨_, _, hupd, ?_⟩
    refine ⟨attachItems
      { db with
          orders := db.orders ++
            [{ mkOrderRow orderId cname orderData (orderTotal items) now with
                status := "completed", updated_at := now2 }],
          order_items := db.order_items ++ mkOrderItemRows orderId itemId items 0 }
      { mkOrderRow orderId cname orderData (orderTotal items) now with
          status := "completed", updated_at := now2 }, ?_, rfl⟩
    exact mem_getOrdersByStatus_of_mem _ "completed" _ (by simp) (by simp)

/-- Witness for C8 at the sample database: the unfiltered and
pending-filtered listings enumerate the stored orders; a freshly created
order is invisible to the completed filter until its status is updated to
completed, after which the filter includes it. -/
theorem listOrders_spec_witness :
    (((getAllOrders sampleDB).map OrderWithItems.order).Perm sampleDB.orders) ∧
    (((getOrdersByStatus "pending" sampleDB).map OrderWithItems.order).Perm
        (sampleDB.orders.filter (fun o => o.status == "pending"))) ∧
    (∀ x ∈ getOrdersByStatus "completed"
        (createOrder sampleOrderData [sampleItemInput] "order_2"
          (fun k => String.append "item_" (toString k)) 7 sampleDB).2,
      x.order.id ≠ "order_2") ∧
    (∃ (y : OrderWithItems) (db2 : DB),
      updateOrderStatus "order_2" "completed" 8
          (createOrder sampleOrderData [sampleItemInput] "order_2"
            (fun k => String.append "item_" (toString k)) 7 sampleDB).2
        = (.ok (some y), db2) ∧
      ∃ x ∈ getOrdersByStatus "completed" db2, x.order.id = "order_2") := by
  obtain ⟨ha, hb, hc1, hc2⟩ := listOrders_spec sampleOrderData [sampleItemInput] "order_2"
    (fun k => String.append "item_" (toString k)) 7 sampleDB "Jane Doe"
    (by decide) (by decide) (by decide) (by decide) (by decide) (by decide)
  exact ⟨(ha sampleDB).1, (hb sampleDB "pending").1, hc1, hc2 8⟩

end BiteBite
